import Mathlib

/-!
# Verification of the queue-run dispatch and middleware engine

Shallow embedding, in Lean 4, of the request/job dispatch core of the
`queue-run` repository, together with theorems settling the specification
claims about it.

Embedded source functions:
* `asFetchRequest` — src/packages/queue-run/src/http/asFetch (src/unnamed/part_002):
  HTTP return-value and thrown-error normalization.
* `authenticateWebSocket` — WebSocket connect authentication (src/unnamed/part_004).
* `handleQueuedJob` / queue `runWithMiddleware` —
  src/packages/queue-run/src/queue/handler.ts: timeout/abort orchestration
  for queue jobs.
* `handleRoute` / socket `runWithMiddleware` — WebSocket message dispatch
  (src/unnamed/part_004).
* `replaceBracket` — src/packages/queue-run/src/http/url.ts: bracket segments
  to path-pattern parameters.
* `loadAndVerify` — src/packages/builder/src/loadFunction.ts: handler-module
  export validation.
* the per-invocation `LocalStorage` scoping used by both dispatchers.

Timers, promise races and abort signals are modelled denotationally: a
handler's behaviour is given by the time (in milliseconds from invocation
start) at which it settles, or `none` when it never settles, plus whether it
rejects.  `Promise.race` of a settlement at time `t` against a timer firing
at delay `d` is resolved by comparing `t` with `d`; the convention is that
the timer wins ties (at millisecond granularity the callback of an already
fired timer runs before a settlement scheduled for the same instant is
observed, and the subsequent `signal.aborted` check in the source collapses
the tie the same way).
-/

namespace QueueRun

/-! ## JavaScript value model

A small universe of JavaScript values, sufficient for the duck-typed checks
performed by the embedded functions (`typeof`, truthiness, `instanceof`
against the constructors the source actually tests).  Objects and functions
carry an identity tag so distinct objects stay distinguishable. -/

inductive JSV where
  | vUndefined : JSV
  | vNull : JSV
  | vBool : Bool → JSV
  | vNum : Int → JSV
  | vStr : String → JSV
  | vFunc : Nat → JSV
  | vObj : Nat → JSV
  deriving DecidableEq, Repr

namespace JSV

/-- JavaScript truthiness: `undefined`, `null`, `false`, `0`, `""` are falsy;
every function and object is truthy. -/
def truthy : JSV → Bool
  | vUndefined => false
  | vNull => false
  | vBool b => b
  | vNum n => n != 0
  | vStr s => s != ""
  | vFunc _ => true
  | vObj _ => true

/-- The result of JavaScript's `typeof`; note `typeof null = "object"`. -/
def typeOf : JSV → String
  | vUndefined => "undefined"
  | vNull => "object"
  | vBool _ => "boolean"
  | vNum _ => "number"
  | vStr _ => "string"
  | vFunc _ => "function"
  | vObj _ => "object"

end JSV

/-! ## `loadAndVerify` (src/packages/builder/src/loadFunction.ts)

```ts
const handler = exports.handler || exports.default;
if (typeof handler !== "function") {
  throw new Error(`Expected ${filename} to export a function (default)`);
}
const config = exports.config || {};
if (typeof config !== "object") {
  throw new Error(`Expected ${filename} to export an object (config)`);
}
return { config, handler };
```

A module's exports record holds the three properties the function reads; a
property the module does not export reads as `undefined`. -/

structure ModuleExports where
  handler : JSV
  dflt : JSV
  config : JSV
  deriving DecidableEq, Repr

structure FunctionExports where
  config : JSV
  handler : JSV
  deriving DecidableEq, Repr

/-- The fresh empty object `{}` that a falsy `config` export defaults to. -/
def emptyObject : JSV := .vObj 0

/-- Embedding of `loadAndVerify`: JavaScript `a || b` yields `a` when `a` is
truthy, else `b`. -/
def loadAndVerify (e : ModuleExports) : Except String FunctionExports :=
  let handler := if e.handler.truthy then e.handler else e.dflt
  if handler.typeOf ≠ "function" then
    .error "Expected module to export a function (default)"
  else
    let config := if e.config.truthy then e.config else emptyObject
    if config.typeOf ≠ "object" then
      .error "Expected module to export an object (config)"
    else
      .ok { config := config, handler := handler }

/-! ## `asFetchRequest` (src/unnamed/part_002)

The handler passed to `asFetchRequest` either returns a value or throws one.
Returned values are normalized per the source's case analysis (Response
passes through, string/Buffer become text/plain, null/undefined become 204,
anything else is JSON-serialized); thrown values are normalized in the
`catch` block (a thrown Response keeps its body and `status ?? 500`; any
other thrown value becomes a 500 whose body is the error's message). -/

/-- A value a handler can return, as discriminated by `asFetchRequest`:
`instanceof Response`, string (or String object), `instanceof Buffer`,
null/undefined, or anything else (carried with its `JSON.stringify` form). -/
inductive HandlerReturn where
  | response (status : Option Nat) (body : String) : HandlerReturn
  | str (s : String) : HandlerReturn
  | buffer (b : String) : HandlerReturn
  | null : HandlerReturn
  | undefined : HandlerReturn
  | other (jsonStringify : String) : HandlerReturn
  deriving DecidableEq, Repr

/-- A value a handler can throw, as discriminated by the `catch` block:
`instanceof Response` (status may be unset), `instanceof Error` (with its
`message`), or any other value (with its `String(error)` form). -/
inductive ThrownValue where
  | response (status : Option Nat) (body : String) : ThrownValue
  | err (message : String) : ThrownValue
  | other (string : String) : ThrownValue
  deriving DecidableEq, Repr

inductive HandlerOutcome where
  | returns (v : HandlerReturn) : HandlerOutcome
  | throws (v : ThrownValue) : HandlerOutcome
  deriving DecidableEq, Repr

/-- The provider reply produced by `asFetchRequest` (`fromFetchResponse`):
status code (`response.status ?? 200`), Content-Type header when one was
set, the body, and whether the null/undefined diagnostic was logged. -/
structure ProxyResponse where
  statusCode : Nat
  contentType : Option String
  body : String
  loggedNullReturn : Bool
  deriving DecidableEq, Repr

/-- Embedding of `asFetchRequest`'s normalization of the handler's outcome. -/
def asFetchRequest (o : HandlerOutcome) : ProxyResponse :=
  match o with
  | .returns (.response status body) =>
      { statusCode := status.getD 200, contentType := none,
        body := body, loggedNullReturn := false }
  | .returns (.str s) =>
      { statusCode := 200, contentType := some "text/plain",
        body := s, loggedNullReturn := false }
  | .returns (.buffer b) =>
      { statusCode := 200, contentType := some "text/plain",
        body := b, loggedNullReturn := false }
  | .returns .null =>
      { statusCode := 204, contentType := none,
        body := "", loggedNullReturn := true }
  | .returns .undefined =>
      { statusCode := 204, contentType := none,
        body := "", loggedNullReturn := true }
  | .returns (.other json) =>
      { statusCode := 200, contentType := some "application/json",
        body := json, loggedNullReturn := false }
  | .throws (.response status body) =>
      { statusCode := status.getD 500, contentType := none,
        body := body, loggedNullReturn := false }
  | .throws (.err message) =>
      { statusCode := 500, contentType := none,
        body := message, loggedNullReturn := false }
  | .throws (.other string) =>
      { statusCode := 500, contentType := none,
        body := string, loggedNullReturn := false }

/-! ## `authenticateWebSocket` (src/unnamed/part_004)

```ts
if (!authenticate) return null;
...
try { user = await authenticate(request, getCookies(request)); }
catch (error) { ...onError...; throw new Response("Internal Server Error", { status: 500 }); }
if (user === null || user?.id) return user;
const concern = user === undefined ? '...returned "undefined"...' : '...without an ID';
throw new Response("Forbidden", { status: 403 });
```
-/

/-- What the `authenticate` hook does on a given connect request. -/
inductive AuthBehavior where
  | returnsNull : AuthBehavior
  | returnsUndefined : AuthBehavior
  /-- returns a user object whose `id` property is the given string
  (a missing `id` reads as the empty string, which is equally falsy). -/
  | returnsUser (id : String) : AuthBehavior
  | throws : AuthBehavior
  deriving DecidableEq, Repr

/-- Outcome of WebSocket connect authentication: an authenticated user, an
anonymous acceptance, or a thrown `Response` with the given status/body. -/
inductive AuthOutcome where
  | anonymous : AuthOutcome
  | authenticated (id : String) : AuthOutcome
  | rejected (status : Nat) (body : String) : AuthOutcome
  deriving DecidableEq, Repr

/-- Embedding of `authenticateWebSocket`.  `hasAuthenticate` is whether the
common middleware defines an `authenticate` hook.  `user?.id` is truthy
exactly when the user object is returned with a non-empty id. -/
def authenticateWebSocket (hasAuthenticate : Bool) (auth : AuthBehavior) :
    AuthOutcome :=
  if !hasAuthenticate then .anonymous
  else
    match auth with
    | .throws => .rejected 500 "Internal Server Error"
    | .returnsNull => .anonymous
    | .returnsUser id =>
        if id ≠ "" then .authenticated id
        else .rejected 403 "Forbidden"
    | .returnsUndefined => .rejected 403 "Forbidden"

/-! ## Queue job handling (src/packages/queue-run/src/queue/handler.ts)

A stage (a middleware hook or the handler itself) either settles some number
of milliseconds after it starts — resolving or rejecting — or never settles. -/

/-- Behaviour of one awaited stage: `duration = none` means it never
settles; otherwise it settles after `duration` ms, rejecting iff `throws`. -/
structure StageBehavior where
  duration : Option Nat
  throws : Bool
  deriving DecidableEq, Repr

/-- Behaviour of the three stages `runWithMiddleware` awaits in order:
`onJobStarted`, the handler (`module.default`), `onJobFinished`.  A hook is
`none` when the middleware does not define it. -/
structure QueueJobBehavior where
  onJobStarted : Option StageBehavior
  handler : StageBehavior
  onJobFinished : Option StageBehavior
  deriving DecidableEq, Repr

/-- How the `runWithMiddleware` promise behaves: settles at an absolute time
(ms from invocation start), rejecting iff `rejects`, or never settles. -/
inductive RunOutcome where
  | settles (time : Nat) (rejects : Bool) : RunOutcome
  | pending : RunOutcome
  deriving DecidableEq, Repr

structure RunResult where
  outcome : RunOutcome
  handlerInvoked : Bool
  deriving DecidableEq, Repr

/-- Embedding of the queue `runWithMiddleware`, given the timer delay `d`
(the abort signal reads aborted at any instant `≥ d`):

```ts
if (middleware.onJobStarted) await middleware.onJobStarted(metadata);
if (signal.aborted) return;
await module.default(payload, metadata);
if (signal.aborted) return;
if (middleware.onJobFinished) await middleware.onJobFinished(metadata);
```
-/
def queueRunWithMiddleware (d : Nat) (b : QueueJobBehavior) : RunResult :=
  -- `if (middleware.onJobStarted) await middleware.onJobStarted(metadata)`
  let started : Option Nat × Bool :=  -- (settle time if it settles, rejected)
    match b.onJobStarted with
    | none => (some 0, false)
    | some s =>
        match s.duration with
        | none => (none, false)
        | some dur => (some dur, s.throws)
  match started with
  | (none, _) => { outcome := .pending, handlerInvoked := false }
  | (some t1, true) => { outcome := .settles t1 true, handlerInvoked := false }
  | (some t1, false) =>
      -- `if (signal.aborted) return;`
      if d ≤ t1 then { outcome := .settles t1 false, handlerInvoked := false }
      else
        -- `await module.default(payload, metadata);`
        match b.handler.duration with
        | none => { outcome := .pending, handlerInvoked := true }
        | some durH =>
            let t2 := t1 + durH
            if b.handler.throws then
              { outcome := .settles t2 true, handlerInvoked := true }
            else if d ≤ t2 then
              -- `if (signal.aborted) return;`
              { outcome := .settles t2 false, handlerInvoked := true }
            else
              -- `if (middleware.onJobFinished) await middleware.onJobFinished(metadata)`
              match b.onJobFinished with
              | none => { outcome := .settles t2 false, handlerInvoked := true }
              | some s =>
                  match s.duration with
                  | none => { outcome := .pending, handlerInvoked := true }
                  | some durF =>
                      { outcome := .settles (t2 + durF) s.throws,
                        handlerInvoked := true }

/-- Everything observable about one `handleQueuedJob` call: the boolean it
returns, whether the handler was invoked, the timer (whether `setTimeout`
ran, with which delay in ms, and whether it was cleared by the time the
call returned), the abort signal's state at return, whether the timeout
error was thrown, and whether `onError` middleware ran. -/
structure QueueJobResult where
  completed : Bool
  handlerInvoked : Bool
  timerCreated : Bool
  timerDelayMs : Nat
  timerClearedAtReturn : Bool
  signalAbortedAtReturn : Bool
  timedOutErrorThrown : Bool
  onErrorInvoked : Bool
  /-- `onError` itself rejected; the rejection was caught and only logged. -/
  onErrorRejectionLogged : Bool
  deriving DecidableEq, Repr

/-- Embedding of `handleQueuedJob` from the point where the queue and module
are loaded (a missing queue or module throws before any of this runs).

* `queueTimeout` — `queue.timeout`, in seconds (per `QueueConfig`);
* `remainingTime` — the caller's remaining time budget, in milliseconds
  (every caller passes `ms("30s") = 30000`);
* `hasOnError` / `onErrorThrows` — whether `middleware.onError` exists and
  whether it itself rejects (its rejection is caught and only logged).

```ts
const timeout = Math.min(queue.timeout * 1000, remainingTime);
if (timeout <= 0) return false;
const controller = new AbortController();
const abortTimeout = setTimeout(() => controller.abort(), timeout * 1000);
try {
  await Promise.race([runWithMiddleware(...), new Promise((resolve) => signal.addEventListener("abort", resolve))]);
  if (signal.aborted) throw new Error(`Timeout: ...`);
  return true;
} catch (error) { ...; if (middleware.onError) { try { await middleware.onError(...) } catch ... } return false; }
finally { clearTimeout(abortTimeout); controller.abort(); }
```

The race is decided by comparing the settle time with the timer delay
`timeout * 1000` (note: `timeout` is already in milliseconds, and
`setTimeout` takes milliseconds); the timer wins ties. -/
def handleQueuedJob (queueTimeout : Nat) (remainingTime : Int)
    (b : QueueJobBehavior) (hasOnError onErrorThrows : Bool) : QueueJobResult :=
  let timeout : Int := min ((queueTimeout : Int) * 1000) remainingTime
  if timeout ≤ 0 then
    { completed := false, handlerInvoked := false, timerCreated := false,
      timerDelayMs := 0, timerClearedAtReturn := false,
      signalAbortedAtReturn := false, timedOutErrorThrown := false,
      onErrorInvoked := false, onErrorRejectionLogged := false }
  else
    let d : Nat := (timeout * 1000).toNat
    let r := queueRunWithMiddleware d b
    let beforeFinally : QueueJobResult :=
      match r.outcome with
      | .settles t rejects =>
          if t < d then
            if rejects then
              -- the race rejects; catch block runs
              { completed := false, handlerInvoked := r.handlerInvoked,
                timerCreated := true, timerDelayMs := d,
                timerClearedAtReturn := false, signalAbortedAtReturn := false,
                timedOutErrorThrown := false, onErrorInvoked := hasOnError,
                onErrorRejectionLogged := hasOnError && onErrorThrows }
            else
              -- race resolves, `signal.aborted` is still false
              { completed := true, handlerInvoked := r.handlerInvoked,
                timerCreated := true, timerDelayMs := d,
                timerClearedAtReturn := false, signalAbortedAtReturn := false,
                timedOutErrorThrown := false, onErrorInvoked := false,
                onErrorRejectionLogged := false }
          else
            -- the abort listener resolves the race first; `signal.aborted`
            -- holds, the timeout error is thrown and caught
            { completed := false, handlerInvoked := r.handlerInvoked,
              timerCreated := true, timerDelayMs := d,
              timerClearedAtReturn := false, signalAbortedAtReturn := true,
              timedOutErrorThrown := true, onErrorInvoked := hasOnError,
              onErrorRejectionLogged := hasOnError && onErrorThrows }
      | .pending =>
          { completed := false, handlerInvoked := r.handlerInvoked,
            timerCreated := true, timerDelayMs := d,
            timerClearedAtReturn := false, signalAbortedAtReturn := true,
            timedOutErrorThrown := true, onErrorInvoked := hasOnError,
            onErrorRejectionLogged := hasOnError && onErrorThrows }
    -- `finally { clearTimeout(abortTimeout); controller.abort(); }`
    { beforeFinally with
      timerClearedAtReturn := true, signalAbortedAtReturn := true }

/-! ## WebSocket message handling (src/unnamed/part_004)

`handleRoute` sets up a timer and abort controller for `route.timeout`
seconds, binds a fresh `LocalStorage`, and delegates to the socket
`runWithMiddleware`; its `finally` clears the timer and aborts the
controller.  `runWithMiddleware` builds the request (`bufferToData` may
throw on malformed JSON — outside its `try`), races
`onMessageReceived`-then-handler against the abort signal, converts a win
by the signal into a `TimeoutError`, and replies through `handleResponse`,
whose `onMessageSent` call is wrapped in its own `try`/`catch`. -/

/-- What one socket message invocation replies with. -/
inductive SocketReply where
  /-- `return null` — falsy handler response, nothing sent. -/
  | replyNull : SocketReply
  /-- a Buffer built by `resultToBuffer` from the handler's response. -/
  | replyData (data : String) : SocketReply
  /-- a Buffer of `JSON.stringify({ error: String(error) })`. -/
  | errorReply (message : String) : SocketReply
  /-- `handleRoute` itself rejected (request construction threw). -/
  | threw : SocketReply
  deriving DecidableEq, Repr

/-- Behaviour of everything user-supplied that one socket message touches. -/
structure SocketBehavior where
  /-- `bufferToData` throws (e.g. `config.type = "json"` and the payload is
  not valid JSON). -/
  parseFails : Bool
  onMessageReceived : Option StageBehavior
  handler : StageBehavior
  /-- the value the handler resolves with; `none` stands for a falsy
  response (`if (!response) return null`), `some s` for a response whose
  `resultToBuffer` form is `s`. -/
  handlerResponse : Option String
  /-- `middleware.onMessageSent` exists. -/
  hasOnMessageSent : Bool
  /-- `onMessageSent` itself throws (caught in `handleResponse`, logged). -/
  onMessageSentThrows : Bool
  /-- `middleware.onError` exists (`handleOnError` catches its rejections). -/
  hasOnError : Bool
  deriving DecidableEq, Repr

structure SocketResult where
  reply : SocketReply
  handlerInvoked : Bool
  timedOutErrorThrown : Bool
  onMessageSentInvoked : Bool
  /-- `onMessageSent` rejected; caught inside `handleResponse`, only logged. -/
  onMessageSentErrorLogged : Bool
  onErrorInvoked : Bool
  timerClearedAtReturn : Bool
  signalAbortedAtReturn : Bool
  deriving DecidableEq, Repr

/-- `handleResponse`: `resultToBuffer`, then `onMessageSent` in its own
`try`/`catch` (failures only logged), then return the buffer — the buffer is
returned whether or not `onMessageSent` rejected. -/
def socketHandleResponse (b : SocketBehavior) (data : String) :
    SocketReply × Bool × Bool :=
  (SocketReply.replyData data, b.hasOnMessageSent,
    b.hasOnMessageSent && b.onMessageSentThrows)

/-- Embedding of `handleRoute` (WebSocket message), with `timeout` in
seconds as passed from `route.timeout`.  The timer delay is
`timeout * 1000` ms; the race convention is as for queue jobs.  The string
`"TimeoutError: Request aborted: timed out"` is `String(error)` for the
thrown `TimeoutError`. -/
def handleRoute (timeout : Nat) (b : SocketBehavior) : SocketResult :=
  let d := timeout * 1000
  let beforeFinally : SocketResult :=
    -- `const request = { data: bufferToData(data, config), ...metadata }`
    -- throws before the try block, so the rejection leaves runWithMiddleware
    if b.parseFails then
      { reply := .threw, handlerInvoked := false,
        timedOutErrorThrown := false, onMessageSentInvoked := false,
        onMessageSentErrorLogged := false,
        onErrorInvoked := false, timerClearedAtReturn := false,
        signalAbortedAtReturn := false }
    else
      -- `Promise.race([(async () => { if (onMessageReceived) await onMessageReceived(request); return await handler(request); })(), abortPromise])`
      let raced : RunOutcome × Bool :=  -- (settlement, handlerInvoked)
        match b.onMessageReceived with
        | none =>
            match b.handler.duration with
            | none => (.pending, true)
            | some durH => (.settles durH b.handler.throws, true)
        | some s =>
            match s.duration with
            | none => (.pending, false)
            | some durR =>
                if s.throws then (.settles durR true, false)
                else
                  match b.handler.duration with
                  | none => (.pending, true)
                  | some durH => (.settles (durR + durH) b.handler.throws, true)
      match raced with
      | (.settles t rejects, invoked) =>
          if t < d then
            if rejects then
              -- catch: handleOnError, then error reply via handleResponse
              { reply := .errorReply "Error: handler failed",
                handlerInvoked := invoked, timedOutErrorThrown := false,
                onMessageSentInvoked := b.hasOnMessageSent,
                onMessageSentErrorLogged :=
                  b.hasOnMessageSent && b.onMessageSentThrows,
                onErrorInvoked := b.hasOnError,
                timerClearedAtReturn := false, signalAbortedAtReturn := false }
            else
              -- `if (signal.aborted) throw ...` — not aborted yet
              match b.handlerResponse with
              | none =>
                  -- `if (!response) return null;`
                  { reply := .replyNull, handlerInvoked := invoked,
                    timedOutErrorThrown := false,
                    onMessageSentInvoked := false,
                    onMessageSentErrorLogged := false, onErrorInvoked := false,
                    timerClearedAtReturn := false,
                    signalAbortedAtReturn := false }
              | some data =>
                  let (reply, sent, logged) := socketHandleResponse b data
                  { reply := reply, handlerInvoked := invoked,
                    timedOutErrorThrown := false,
                    onMessageSentInvoked := sent,
                    onMessageSentErrorLogged := logged, onErrorInvoked := false,
                    timerClearedAtReturn := false,
                    signalAbortedAtReturn := false }
          else
            -- the abort listener resolves the race; TimeoutError thrown,
            -- caught: handleOnError, then error reply via handleResponse
            { reply := .errorReply "TimeoutError: Request aborted: timed out",
              handlerInvoked := invoked, timedOutErrorThrown := true,
              onMessageSentInvoked := b.hasOnMessageSent,
              onMessageSentErrorLogged :=
                b.hasOnMessageSent && b.onMessageSentThrows,
              onErrorInvoked := b.hasOnError,
              timerClearedAtReturn := false, signalAbortedAtReturn := false }
      | (.pending, invoked) =>
          { reply := .errorReply "TimeoutError: Request aborted: timed out",
            handlerInvoked := invoked, timedOutErrorThrown := true,
            onMessageSentInvoked := b.hasOnMessageSent,
            onMessageSentErrorLogged :=
              b.hasOnMessageSent && b.onMessageSentThrows,
            onErrorInvoked := b.hasOnError,
            timerClearedAtReturn := false, signalAbortedAtReturn := false }
  -- `finally { clearTimeout(timer); controller.abort(); }`
  { beforeFinally with
    timerClearedAtReturn := true, signalAbortedAtReturn := true }

/-! ## Per-invocation `LocalStorage` scoping

`handleRoute` (src/unnamed/part_004) allocates a fresh storage and writes
the invocation's user and connection into it:

```ts
const localStorage = newLocalStorage();
localStorage.user = userId ? { id: userId } : null;
return await withLocalStorage(localStorage, () => {
  localStorage.connection = connection;
  ...
});
```
-/

/-- The mutable per-invocation execution context: current authenticated
user (their id; `none` for null) and connection id. -/
structure LocalStorage where
  user : Option String
  connection : Option String
  deriving DecidableEq, Repr

/-- A fresh `LocalStorage` as `newLocalStorage()` hands it out. -/
def LocalStorage.fresh : LocalStorage := { user := none, connection := none }

/-- A write one invocation performs on its own execution context. -/
inductive CtxAction where
  | setUser (u : Option String) : CtxAction
  | setConnection (c : String) : CtxAction
  deriving DecidableEq, Repr

def applyAction (s : LocalStorage) : CtxAction → LocalStorage
  | .setUser u => { s with user := u }
  | .setConnection c => { s with connection := some c }

/-- Modelled from the spec: `withLocalStorage` / `getLocalStorage` (the
`AsyncLocalStorage`-backed shared runtime, which is not under src/ — only
its users are).  Per the spec's Execution Context contract, the storage is
"scoped strictly to one invocation's call stack" and "created fresh per
invocation by the caller, handed to the Orchestrator, discarded at
invocation end.  Never shared or pooled across invocations".  So the
process state maps each live invocation to its own storage, and every
context operation an invocation performs — `getLocalStorage().user = ...`,
`localStorage.connection = ...` — targets exactly that invocation's
storage. -/
def ProcessState := Nat → LocalStorage

def stepCtx (s : ProcessState) (p : Nat × CtxAction) : ProcessState :=
  fun j => if j = p.1 then applyAction (s p.1) p.2 else s j

/-- Run an interleaved trace of context writes, each tagged with the
invocation that performs it. -/
def runCtxTrace (tr : List (Nat × CtxAction)) (s : ProcessState) :
    ProcessState :=
  tr.foldl stepCtx s

/-- The context writes one `handleRoute` invocation performs, in source
order: `localStorage.user = userId ? { id: userId } : null` then
`localStorage.connection = connection` (an empty `userId` is falsy). -/
def handleRouteCtxActions (userId : Option String) (connection : String) :
    List CtxAction :=
  [.setUser (userId.bind fun id => if id = "" then none else some id),
   .setConnection connection]

/-- `Interleaving l₁ l₂ l`: `l` is an interleaving of `l₁` and `l₂`
(each kept in order) — the cooperative scheduler may run the two
invocations' steps in any such order. -/
inductive Interleaving : List (Nat × CtxAction) → List (Nat × CtxAction) →
    List (Nat × CtxAction) → Prop where
  | nil : Interleaving [] [] []
  | left {x xs ys zs} : Interleaving xs ys zs →
      Interleaving (x :: xs) ys (x :: zs)
  | right {y xs ys zs} : Interleaving xs ys zs →
      Interleaving xs (y :: ys) (y :: zs)

/-- Tag every action of one invocation with that invocation's id. -/
def tagged (i : Nat) (as : List CtxAction) : List (Nat × CtxAction) :=
  as.map (fun a => (i, a))

/-! ## `replaceBracket` (src/packages/queue-run/src/http/url.ts)

```ts
function replaceBracket(path: string): string {
  return path.replace(
    /(^|\/)\[(.+?)\](\/|\?|#|$)/g,
    (_, before, name, after) =>
      `${before}:${name.startsWith("...") ? name.slice(3) + "*" : name}${after}`
  );
}
```

The embedding reproduces the JavaScript regex engine's behaviour on this
pattern: a global left-to-right scan; at each position the alternation
`(^|\/)` tries `^` (only at position 0) then `/`; `(.+?)` is lazy and `.`
matches any character but a newline (so a failed `\](\/|\?|#|$)` check
backtracks by letting `.` consume the `]`); a successful match consumes the
trailing separator, so scanning resumes after it. -/

/-- Separators accepted by `(\/|\?|#|$)` (the `$` case is end of input). -/
def seps : List Char := ['/', '?', '#']

/-- Match `(.+?)\](\/|\?|#|$)` lazily against `l`, with `acc` the name
matched so far (reversed).  Returns `(name, consumed-after, rest)`:
`consumed-after` is `[]` when the match ended at `$`, else the one
separator character consumed. -/
def splitName (acc : List Char) : List Char →
    Option (List Char × List Char × List Char)
  | [] => none
  | c :: rest =>
      if c = ']' then
        if acc = [] then
          -- `.+?` needs at least one character; `.` consumes the `]`
          splitName (']' :: acc) rest
        else
          match rest with
          | [] => some (acc.reverse, [], [])
          | d :: rest' =>
              if d ∈ seps then some (acc.reverse, [d], rest')
              else
                -- after-check failed: backtrack, `.` consumes the `]`
                splitName (']' :: acc) rest
      else if c = '\n' then none
      else splitName (c :: acc) rest

theorem splitName_cons (acc : List Char) (c : Char) (rest : List Char) :
    splitName acc (c :: rest) =
      if c = ']' then
        if acc = [] then
          splitName (']' :: acc) rest
        else
          match rest with
          | [] => some (acc.reverse, [], [])
          | d :: rest' =>
              if d ∈ seps then some (acc.reverse, [d], rest')
              else splitName (']' :: acc) rest
      else if c = '\n' then none
      else splitName (c :: acc) rest := rfl

/-- Match `\[(.+?)\](\/|\?|#|$)` at the head of `l`. -/
def matchBracket : List Char → Option (List Char × List Char × List Char)
  | [] => none
  | c :: rest => if c = '[' then splitName [] rest else none

/-- `` `${name.startsWith("...") ? name.slice(3) + "*" : name}` `` -/
def transformName (name : List Char) : List Char :=
  if name.take 3 = ['.', '.', '.'] then name.drop 3 ++ ['*'] else name

/-- The `^` alternative of `(^|\/)`: only available at position 0, consumes
no prefix character. -/
def tryCaret (atStart : Bool) (l : List Char) :
    Option (List Char × List Char) :=
  if atStart then
    match matchBracket l with
    | some (name, after, rest) =>
        some (':' :: (transformName name ++ after), rest)
    | none => none
  else none

/-- The `\/` alternative of `(^|\/)`: consumes a slash, which the
replacement re-emits as `before`. -/
def trySlash : List Char → Option (List Char × List Char)
  | [] => none
  | c :: rest =>
      if c = '/' then
        match matchBracket rest with
        | some (name, after, rest') =>
            some ('/' :: ':' :: (transformName name ++ after), rest')
        | none => none
      else none

/-- Attempt the whole pattern at the current position; the `^` alternative
is tried before the `\/` one. -/
def tryMatch (atStart : Bool) (l : List Char) :
    Option (List Char × List Char) :=
  match tryCaret atStart l with
  | some r => some r
  | none => trySlash l

theorem splitName_length {acc l n a r} :
    splitName acc l = some (n, a, r) → r.length < l.length := by
  induction l generalizing acc with
  | nil => intro h; simp [splitName] at h
  | cons c rest ih =>
      intro h
      rw [splitName_cons] at h
      split at h
      · split at h
        · exact Nat.lt_trans (ih h) (Nat.lt_succ_self _)
        · split at h
          · simp only [Option.some.injEq, Prod.mk.injEq] at h
            simp [← h.2.2]
          · split at h
            · simp only [Option.some.injEq, Prod.mk.injEq] at h
              simp [← h.2.2]
              omega
            · exact Nat.lt_trans (ih h) (Nat.lt_succ_self _)
      · split at h
        · simp at h
        · exact Nat.lt_trans (ih h) (Nat.lt_succ_self _)

theorem matchBracket_length {l n a r} :
    matchBracket l = some (n, a, r) → r.length + 1 < l.length := by
  match l with
  | [] => intro h; simp [matchBracket] at h
  | c :: rest =>
      intro h
      rw [show matchBracket (c :: rest)
            = if c = '[' then splitName [] rest else none from rfl] at h
      split at h
      · have := splitName_length h
        simpa using Nat.succ_lt_succ this
      · simp at h

theorem tryCaret_length {b l repl rest} :
    tryCaret b l = some (repl, rest) → rest.length < l.length := by
  intro h
  rw [tryCaret] at h
  split at h
  · split at h
    · rename_i n a r hm
      simp only [Option.some.injEq, Prod.mk.injEq] at h
      have hlen := matchBracket_length hm
      have hr : r = rest := h.2
      subst hr
      omega
    · simp at h
  · simp at h

theorem trySlash_length {l repl rest} :
    trySlash l = some (repl, rest) → rest.length < l.length := by
  match l with
  | [] => intro h; simp [trySlash] at h
  | c :: rest₀ =>
      intro h
      rw [show trySlash (c :: rest₀)
            = if c = '/' then
                match matchBracket rest₀ with
                | some (name, after, rest') =>
                    some ('/' :: ':' :: (transformName name ++ after), rest')
                | none => none
              else none from rfl] at h
      split at h
      · split at h
        · rename_i name after rest' hm
          simp only [Option.some.injEq, Prod.mk.injEq] at h
          have hlen := matchBracket_length hm
          have hr : rest' = rest := h.2
          subst hr
          simp only [List.length_cons]
          omega
        · simp at h
      · simp at h

theorem tryMatch_length {b l repl rest} :
    tryMatch b l = some (repl, rest) → rest.length < l.length := by
  intro h
  rw [tryMatch] at h
  split at h
  · rename_i r hm
    simp only [Option.some.injEq] at h
    subst h
    exact tryCaret_length hm
  · exact trySlash_length h

/-- The global scan: at each position try the pattern; on a match emit the
replacement and resume after the consumed text, else emit the character and
move one position right.  `atStart` is true only at position 0. -/
def scanAux (atStart : Bool) (l : List Char) : List Char :=
  match l with
  | [] => []
  | c :: cs =>
      match h : tryMatch atStart (c :: cs) with
      | some (repl, rest) => repl ++ scanAux false rest
      | none => c :: scanAux false cs
termination_by l.length
decreasing_by
  · exact tryMatch_length h
  · simp

/-- Embedding of `replaceBracket`. -/
def replaceBracket (s : String) : String := ⟨scanAux true s.toList⟩

theorem scanAux_nil (b : Bool) : scanAux b [] = [] := by
  rw [scanAux]

theorem scanAux_cons_match {b : Bool} {c : Char} {cs repl rest : List Char}
    (h : tryMatch b (c :: cs) = some (repl, rest)) :
    scanAux b (c :: cs) = repl ++ scanAux false rest := by
  rw [scanAux]
  split
  · rename_i repl' rest' h'
    rw [h] at h'
    simp only [Option.some.injEq, Prod.mk.injEq] at h'
    rw [h'.1, h'.2]
  · rename_i h'
    rw [h] at h'
    simp at h'

theorem scanAux_cons_nomatch {b : Bool} {c : Char} {cs : List Char}
    (h : tryMatch b (c :: cs) = none) :
    scanAux b (c :: cs) = c :: scanAux false cs := by
  rw [scanAux]
  split
  · rename_i repl' rest' h'
    rw [h] at h'
    simp at h'
  · rfl

theorem tryCaret_false (l : List Char) : tryCaret false l = none := rfl

theorem tryMatch_false (l : List Char) : tryMatch false l = trySlash l := rfl

theorem trySlash_cons_ne {c : Char} {cs : List Char} (h : c ≠ '/') :
    trySlash (c :: cs) = none := by
  rw [show trySlash (c :: cs)
        = if c = '/' then
            match matchBracket cs with
            | some (name, after, rest') =>
                some ('/' :: ':' :: (transformName name ++ after), rest')
            | none => none
          else none from rfl, if_neg h]

theorem matchBracket_cons_ne {c : Char} {cs : List Char} (h : c ≠ '[') :
    matchBracket (c :: cs) = none := by
  rw [show matchBracket (c :: cs)
        = if c = '[' then splitName [] cs else none from rfl, if_neg h]

/-- A match never starts at a position whose character is neither `/` nor
(at position 0) `[`; the scan just emits the character. -/
theorem scan_append_lit {lit l : List Char} (h : '/' ∉ lit) :
    scanAux false (lit ++ l) = lit ++ scanAux false l := by
  induction lit with
  | nil => simp
  | cons c cs ih =>
      have hc : c ≠ '/' := fun hh => h (hh ▸ List.mem_cons_self c cs)
      have hm : tryMatch false (c :: (cs ++ l)) = none := by
        rw [tryMatch_false]
        exact trySlash_cons_ne hc
      rw [List.cons_append, scanAux_cons_nomatch hm,
        ih (fun m => h (List.mem_cons_of_mem _ m))]
      simp

/-- `afterOk rest`: the after-group `(\/|\?|#|$)` matches at `rest`. -/
def afterOk : List Char → Prop
  | [] => True
  | d :: _ => d ∈ seps

instance : DecidablePred afterOk := by
  intro l
  cases l <;> simp only [afterOk] <;> infer_instance

/-- `splitName` on a well-formed name followed by `]` and a valid after
position: the laziness stops exactly at that `]`, consuming the separator. -/
theorem splitName_spec {n rest : List Char} (acc : List Char)
    (hne : acc.reverse ++ n ≠ []) (h1 : ']' ∉ n) (h2 : '\n' ∉ n)
    (hok : afterOk rest) :
    splitName acc (n ++ ']' :: rest)
      = some (acc.reverse ++ n, rest.take 1, rest.drop 1) := by
  induction n generalizing acc with
  | nil =>
      rw [List.nil_append, splitName_cons, if_pos rfl]
      have hacc : acc ≠ [] := by
        intro hh
        apply hne
        simp [hh]
      rw [if_neg hacc]
      match rest, hok with
      | [], _ => simp
      | d :: t, hok =>
          have hd : d ∈ seps := hok
          simp [if_pos hd]
  | cons c n' ih =>
      have hc1 : c ≠ ']' := fun hh => h1 (hh ▸ List.mem_cons_self c n')
      have hc2 : c ≠ '\n' := fun hh => h2 (hh ▸ List.mem_cons_self c n')
      rw [List.cons_append, splitName_cons, if_neg hc1, if_neg hc2]
      have hne' : (c :: acc).reverse ++ n' ≠ [] := by simp
      have h1' : ']' ∉ n' := fun m => h1 (List.mem_cons_of_mem _ m)
      have h2' : '\n' ∉ n' := fun m => h2 (List.mem_cons_of_mem _ m)
      rw [ih (c :: acc) hne' h1' h2']
      simp

/-- `matchBracket` at a rendered bracket segment. -/
theorem matchBracket_spec {n rest : List Char} (hne : n ≠ [])
    (h1 : ']' ∉ n) (h2 : '\n' ∉ n) (hok : afterOk rest) :
    matchBracket ('[' :: (n ++ ']' :: rest))
      = some (n, rest.take 1, rest.drop 1) := by
  rw [show matchBracket ('[' :: (n ++ ']' :: rest))
        = if ('[' : Char) = '[' then splitName [] (n ++ ']' :: rest)
          else none from rfl, if_pos rfl]
  have := @splitName_spec n rest [] (by simpa using hne) h1 h2 hok
  simpa using this

theorem tryCaret_slash (b : Bool) (l : List Char) :
    tryCaret b ('/' :: l) = none := by
  rw [tryCaret]
  cases b
  · simp
  · rw [if_pos rfl, matchBracket_cons_ne (by decide)]

/-- The whole pattern at a `/` followed by a rendered bracket segment. -/
theorem tryMatch_slash_bracket {n rest : List Char} (b : Bool) (hne : n ≠ [])
    (h1 : ']' ∉ n) (h2 : '\n' ∉ n) (hok : afterOk rest) :
    tryMatch b ('/' :: '[' :: (n ++ ']' :: rest))
      = some ('/' :: ':' :: (transformName n ++ rest.take 1), rest.drop 1) := by
  rw [tryMatch, tryCaret_slash]
  rw [show trySlash ('/' :: '[' :: (n ++ ']' :: rest))
        = if ('/' : Char) = '/' then
            match matchBracket ('[' :: (n ++ ']' :: rest)) with
            | some (name, after, rest') =>
                some ('/' :: ':' :: (transformName name ++ after), rest')
            | none => none
          else none from rfl, if_pos rfl,
    matchBracket_spec hne h1 h2 hok]

/-- The whole pattern at position 0 on a path that begins with a bracket
segment (the `^` alternative). -/
theorem tryMatch_start_bracket {n rest : List Char} (hne : n ≠ [])
    (h1 : ']' ∉ n) (h2 : '\n' ∉ n) (hok : afterOk rest) :
    tryMatch true ('[' :: (n ++ ']' :: rest))
      = some (':' :: (transformName n ++ rest.take 1), rest.drop 1) := by
  rw [tryMatch, tryCaret, if_pos rfl, matchBracket_spec hne h1 h2 hok]

theorem scanAux_true_slash (cs : List Char) :
    scanAux true ('/' :: cs) = scanAux false ('/' :: cs) := by
  have heq : tryMatch true ('/' :: cs) = tryMatch false ('/' :: cs) := by
    rw [tryMatch, tryMatch, tryCaret_slash, tryCaret_false]
  match hm : tryMatch false ('/' :: cs) with
  | some (repl, rest) =>
      rw [scanAux_cons_match (heq.trans hm), scanAux_cons_match hm]
  | none =>
      rw [scanAux_cons_nomatch (heq.trans hm), scanAux_cons_nomatch hm]

/-! ### Filesystem-convention paths as segment lists

A path is rendered from a list of segments, each either a literal or a
bracket segment `[name]` (a catch-all is a bracket segment whose name
starts with `...`). -/

inductive Seg where
  | lit : List Char → Seg
  | bracket : List Char → Seg
  deriving DecidableEq, Repr

/-- The filesystem-convention rendering of one segment. -/
def Seg.render : Seg → List Char
  | .lit s => s
  | .bracket n => '[' :: (n ++ [']'])

/-- The path-pattern rendering the spec claims: `[name]` becomes `:name`,
`[...name]` becomes `:name*`, literals are untouched. -/
def Seg.replaced : Seg → List Char
  | .lit s => s
  | .bracket n => ':' :: transformName n

/-- Well-formedness: a literal segment is non-empty and contains no `/`,
`[`; a bracket name is non-empty and contains no `]`, `\n`. -/
def Seg.ok : Seg → Prop
  | .lit s => s ≠ [] ∧ '/' ∉ s ∧ '[' ∉ s
  | .bracket n => n ≠ [] ∧ ']' ∉ n ∧ '\n' ∉ n

instance : DecidablePred Seg.ok := by
  intro s
  cases s <;> simp only [Seg.ok] <;> infer_instance

/-- Render a segment list with a `/` before every segment (an absolute
path: `/seg1/seg2/...`). -/
def preSlashRender : List Seg → List Char
  | [] => []
  | s :: r => '/' :: (s.render ++ preSlashRender r)

def preSlashReplaced : List Seg → List Char
  | [] => []
  | s :: r => '/' :: (s.replaced ++ preSlashReplaced r)

/-- No two adjacent bracket segments. -/
def noAdjBrackets : List Seg → Bool
  | .bracket _ :: .bracket _ :: _ => false
  | _ :: r => noAdjBrackets r
  | [] => true

theorem scan_preSlash (segs : List Seg) (hok : ∀ s ∈ segs, s.ok)
    (hadj : noAdjBrackets segs = true) :
    scanAux false (preSlashRender segs) = preSlashReplaced segs := by
  induction segs with
  | nil => simp [preSlashRender, preSlashReplaced, scanAux_nil]
  | cons s r ih =>
      match s with
      | .lit t =>
          obtain ⟨ht0, ht1, ht2⟩ := hok (.lit t) (List.mem_cons_self _ _)
          have hadj' : noAdjBrackets r = true := by
            rw [show noAdjBrackets (.lit t :: r) = noAdjBrackets r from by
              cases r with
              | nil => rfl
              | cons s2 r2 => cases s2 <;> rfl] at hadj
            exact hadj
          match t, ht0 with
          | c :: t', _ =>
              have hc : c ≠ '/' := fun hh => ht1 (hh ▸ List.mem_cons_self c t')
              have hm : tryMatch false
                  ('/' :: ((c :: t') ++ preSlashRender r)) = none := by
                rw [tryMatch_false]
                rw [show trySlash ('/' :: ((c :: t') ++ preSlashRender r))
                      = if ('/' : Char) = '/' then
                          match matchBracket ((c :: t') ++ preSlashRender r) with
                          | some (name, after, rest') =>
                              some ('/' :: ':' ::
                                (transformName name ++ after), rest')
                          | none => none
                        else none from rfl, if_pos rfl,
                  show ((c :: t') ++ preSlashRender r)
                    = c :: (t' ++ preSlashRender r) from rfl,
                  matchBracket_cons_ne (fun hh =>
                    ht2 (hh ▸ List.mem_cons_self c t'))]
              rw [show preSlashRender (.lit (c :: t') :: r)
                    = '/' :: ((c :: t') ++ preSlashRender r) from rfl,
                scanAux_cons_nomatch hm,
                scan_append_lit ht1, ih (fun x hx =>
                  hok x (List.mem_cons_of_mem _ hx)) hadj']
              rfl
      | .bracket n =>
          obtain ⟨hn0, hn1, hn2⟩ := hok (.bracket n) (List.mem_cons_self _ _)
          match r with
          | [] =>
              have hm := @tryMatch_slash_bracket n [] false hn0 hn1 hn2 trivial
              rw [show preSlashRender [Seg.bracket n]
                    = '/' :: '[' :: (n ++ ']' :: []) from by
                  simp [preSlashRender, Seg.render],
                scanAux_cons_match hm]
              simp [preSlashReplaced, Seg.replaced, scanAux_nil]
          | .bracket m :: r' =>
              rw [show noAdjBrackets (.bracket n :: .bracket m :: r')
                    = false from rfl] at hadj
              exact absurd hadj (by simp)
          | .lit t2 :: r' =>
              obtain ⟨ht0, ht1, ht2⟩ :=
                hok (.lit t2) (List.mem_cons_of_mem _ (List.mem_cons_self _ _))
              have hadj' : noAdjBrackets (Seg.lit t2 :: r') = true := by
                rw [show noAdjBrackets (.bracket n :: .lit t2 :: r')
                      = noAdjBrackets (.lit t2 :: r') from rfl] at hadj
                exact hadj
              have ihr := ih (fun x hx => hok x (List.mem_cons_of_mem _ hx)) hadj'
              -- peel the leading `/`+literal of the tail from the IH
              match t2, ht0 with
              | c2 :: t2', _ =>
                  have hm2 : tryMatch false
                      ('/' :: ((c2 :: t2') ++ preSlashRender r')) = none := by
                    rw [tryMatch_false]
                    rw [show trySlash ('/' :: ((c2 :: t2') ++ preSlashRender r'))
                          = if ('/' : Char) = '/' then
                              match matchBracket
                                  ((c2 :: t2') ++ preSlashRender r') with
                              | some (name, after, rest') =>
                                  some ('/' :: ':' ::
                                    (transformName name ++ after), rest')
                              | none => none
                            else none from rfl, if_pos rfl,
                      show ((c2 :: t2') ++ preSlashRender r')
                        = c2 :: (t2' ++ preSlashRender r') from rfl,
                      matchBracket_cons_ne (fun hh =>
                        ht2 (hh ▸ List.mem_cons_self c2 t2'))]
                  have htail : scanAux false ((c2 :: t2') ++ preSlashRender r')
                      = (c2 :: t2') ++ preSlashReplaced r' := by
                    have := ihr
                    rw [show preSlashRender (.lit (c2 :: t2') :: r')
                          = '/' :: ((c2 :: t2') ++ preSlashRender r') from rfl,
                      scanAux_cons_nomatch hm2] at this
                    rw [show preSlashReplaced (.lit (c2 :: t2') :: r')
                          = '/' :: ((c2 :: t2') ++ preSlashReplaced r') from rfl]
                      at this
                    exact List.cons_injective.eq_iff.mp this
                  have hrest : afterOk ('/' :: ((c2 :: t2') ++ preSlashRender r')) := by
                    simp [afterOk, seps]
                  have hm := @tryMatch_slash_bracket
                    n ('/' :: ((c2 :: t2') ++ preSlashRender r'))
                    false hn0 hn1 hn2 hrest
                  rw [show preSlashRender (.bracket n :: .lit (c2 :: t2') :: r')
                        = '/' :: '[' :: (n ++ ']' ::
                          ('/' :: ((c2 :: t2') ++ preSlashRender r'))) from by
                      simp [preSlashRender, Seg.render],
                    scanAux_cons_match hm]
                  simp only [List.take, List.drop] at *
                  rw [htail]
                  simp [preSlashReplaced, Seg.replaced]

/-! ## Derived quantities of the queue-job orchestration -/

/-- `Math.min(queue.timeout * 1000, remainingTime)` — the `timeout`
variable of `handleQueuedJob` (milliseconds, since `remainingTime` is
milliseconds). -/
def effectiveTimeout (queueTimeout : Nat) (remainingTime : Int) : Int :=
  min ((queueTimeout : Int) * 1000) remainingTime

/-- The delay actually handed to `setTimeout`: `timeout * 1000`. -/
def timerDelay (queueTimeout : Nat) (remainingTime : Int) : Nat :=
  (effectiveTimeout queueTimeout remainingTime * 1000).toNat

/-- The job promise loses the race: it never settles, or settles no earlier
than the timer fires. -/
def jobTimesOut (d : Nat) (b : QueueJobBehavior) : Prop :=
  match (queueRunWithMiddleware d b).outcome with
  | .pending => True
  | .settles t _ => d ≤ t

/-- The job promise rejects strictly before the timer fires (handler or a
lifecycle hook threw). -/
def jobRejectsBeforeTimer (d : Nat) (b : QueueJobBehavior) : Prop :=
  match (queueRunWithMiddleware d b).outcome with
  | .pending => False
  | .settles t rejects => rejects = true ∧ t < d

instance (d b) : Decidable (jobTimesOut d b) := by
  unfold jobTimesOut
  exact match (queueRunWithMiddleware d b).outcome with
  | .pending => .isTrue trivial
  | .settles _ _ => Nat.decLe _ _

instance (d b) : Decidable (jobRejectsBeforeTimer d b) := by
  unfold jobRejectsBeforeTimer
  exact match (queueRunWithMiddleware d b).outcome with
  | .pending => .isFalse id
  | .settles _ _ => instDecidableAnd

/-! ## Context-isolation lemmas (C7 machinery) -/

theorem runCtxTrace_nil (s : ProcessState) : runCtxTrace [] s = s := rfl

theorem runCtxTrace_cons (p : Nat × CtxAction) (tr : List (Nat × CtxAction))
    (s : ProcessState) :
    runCtxTrace (p :: tr) s = runCtxTrace tr (stepCtx s p) := rfl

/-- The storage of invocation `j` after a trace is exactly `j`'s own
actions folded over `j`'s own storage: steps tagged with any other
invocation never touch it. -/
theorem runCtxTrace_filter (tr : List (Nat × CtxAction)) (s : ProcessState)
    (j : Nat) :
    runCtxTrace tr s j
      = ((tr.filter (fun p => p.1 == j)).map Prod.snd).foldl applyAction (s j)
    := by
  induction tr generalizing s with
  | nil => rfl
  | cons p tr ih =>
      rw [runCtxTrace_cons, ih]
      by_cases hj : p.1 = j
      · have hb : (p.1 == j) = true := by simp [hj]
        rw [List.filter_cons, if_pos hb]
        simp only [List.map_cons, List.foldl_cons]
        congr 1
        simp [stepCtx, hj]
      · have hb : ¬((p.1 == j) = true) := by simp [hj]
        rw [List.filter_cons, if_neg hb]
        congr 1
        have hji : j ≠ p.1 := fun hh => hj hh.symm
        simp [stepCtx, hji]

theorem interleaving_filter {j : Nat} {l1 l2 tr : List (Nat × CtxAction)}
    (h : Interleaving l1 l2 tr) (h1 : ∀ p ∈ l1, p.1 ≠ j)
    (h2 : ∀ p ∈ l2, p.1 = j) :
    tr.filter (fun p => p.1 == j) = l2 := by
  induction h with
  | nil => rfl
  | left h ih =>
      rename_i x xs ys zs
      have hx : ¬((x.1 == j) = true) := by
        simp only [beq_iff_eq]
        exact h1 x (List.mem_cons_self _ _)
      rw [List.filter_cons, if_neg hx]
      exact ih (fun p hp => h1 p (List.mem_cons_of_mem _ hp)) h2
  | right h ih =>
      rename_i y xs ys zs
      have hy : (y.1 == j) = true := by
        simp only [beq_iff_eq]
        exact h2 y (List.mem_cons_self _ _)
      rw [List.filter_cons, if_pos hy]
      rw [ih h1 (fun p hp => h2 p (List.mem_cons_of_mem _ hp))]

theorem tagged_map_snd (i : Nat) (as : List CtxAction) :
    (tagged i as).map Prod.snd = as := by
  simp [tagged]

theorem tagged_fst {i : Nat} {as : List CtxAction} {p : Nat × CtxAction}
    (h : p ∈ tagged i as) : p.1 = i := by
  simp only [tagged, List.mem_map] at h
  obtain ⟨a, -, rfl⟩ := h
  rfl

/-! ## Claims -/

/-- C5: For every value an HTTP handler returns, the wire reply follows the
total case analysis of `asFetchRequest`: a Response-like object passes
through (its status, defaulting to 200, and body are kept); a string or
Buffer becomes a text body with Content-Type text/plain; null or undefined
becomes an empty 204 reply with a diagnostic log; any other value is
JSON-serialized with Content-Type application/json. -/
theorem c5_return_normalization (status : Option Nat)
    (body s b json : String) :
    asFetchRequest (.returns (.response status body))
        = ⟨status.getD 200, none, body, false⟩
    ∧ asFetchRequest (.returns (.str s)) = ⟨200, some "text/plain", s, false⟩
    ∧ asFetchRequest (.returns (.buffer b))
        = ⟨200, some "text/plain", b, false⟩
    ∧ asFetchRequest (.returns .null) = ⟨204, none, "", true⟩
    ∧ asFetchRequest (.returns .undefined) = ⟨204, none, "", true⟩
    ∧ asFetchRequest (.returns (.other json))
        = ⟨200, some "application/json", json, false⟩ :=
  ⟨rfl, rfl, rfl, rfl, rfl, rfl⟩

/-- C3 (counterexample): a thrown non-Response error produces a 500 reply
whose body is the error's message verbatim — internal error details ARE
leaked into the response body, contradicting the claim. -/
theorem c3_counterexample :
    (asFetchRequest (.throws (.err "connect ECONNREFUSED db:5432"))).statusCode
        = 500
    ∧ (asFetchRequest (.throws (.err "connect ECONNREFUSED db:5432"))).body
        = "connect ECONNREFUSED db:5432" :=
  ⟨rfl, rfl⟩

/-- C3 (amended): a thrown Response-shaped value keeps its body and its
status (defaulting to 500 when unset) — in particular a thrown 422 Response
yields status 422 with the given body; any other thrown value yields a 500
reply whose body is the error's message (`String(error)` for non-Error
values), so the message is echoed to the caller rather than suppressed. -/
theorem c3_error_normalization (status : Option Nat) (body m str : String) :
    asFetchRequest (.throws (.response status body))
        = ⟨status.getD 500, none, body, false⟩
    ∧ asFetchRequest (.throws (.response (some 422) body))
        = ⟨422, none, body, false⟩
    ∧ asFetchRequest (.throws (.err m)) = ⟨500, none, m, false⟩
    ∧ asFetchRequest (.throws (.other str)) = ⟨500, none, str, false⟩ :=
  ⟨rfl, rfl, rfl, rfl⟩

/-- C4 (counterexample): `authenticate` returning `undefined` is NOT
treated as anonymous — it is rejected 403 Forbidden; and `authenticate`
throwing does NOT produce a 401/403 authorization denial — it produces a
500 Internal Server Error. -/
theorem c4_counterexample :
    authenticateWebSocket true .returnsUndefined = .rejected 403 "Forbidden"
    ∧ authenticateWebSocket true .throws
        = .rejected 500 "Internal Server Error" := by
  constructor <;> rfl

/-- C4 (amended): with no `authenticate` hook the connection is anonymous;
a returned `null` (exactly null) is anonymous; a user with a non-empty id
is authenticated; a user with an empty/missing id, or a returned
`undefined`, is rejected 403 Forbidden; a throwing hook is rejected 500
Internal Server Error (after best-effort `onError`).  In every rejected
case no user is produced and the raw handler is never reached. -/
theorem c4_authentication (auth : AuthBehavior) (id : String) :
    authenticateWebSocket false auth = .anonymous
    ∧ authenticateWebSocket true .returnsNull = .anonymous
    ∧ (id ≠ "" →
        authenticateWebSocket true (.returnsUser id) = .authenticated id)
    ∧ authenticateWebSocket true (.returnsUser "") = .rejected 403 "Forbidden"
    ∧ authenticateWebSocket true .returnsUndefined = .rejected 403 "Forbidden"
    ∧ authenticateWebSocket true .throws
        = .rejected 500 "Internal Server Error" := by
  refine ⟨rfl, rfl, ?_, rfl, rfl, rfl⟩
  intro h
  simp [authenticateWebSocket, h]

theorem c4_authentication_witness :
    authenticateWebSocket true (.returnsUser "alice") = .authenticated "alice"
    ∧ authenticateWebSocket false .throws = .anonymous :=
  ⟨(c4_authentication .throws "alice").2.2.1 (by decide),
   (c4_authentication .throws "alice").1⟩

/-- C9 (counterexample): (1) a module whose `default` export is a function
and whose `config` is an object still fails to load when its `handler`
export is a truthy non-function (it shadows `default`); (2) a module whose
`config` export is `false` — present and not an object — loads successfully
with the empty-object default. -/
theorem c9_counterexample :
    loadAndVerify ⟨.vObj 1, .vFunc 0, emptyObject⟩
        = .error "Expected module to export a function (default)"
    ∧ loadAndVerify ⟨.vUndefined, .vFunc 0, .vBool false⟩
        = .ok ⟨emptyObject, .vFunc 0⟩ :=
  ⟨rfl, rfl⟩

/-- C9 (amended): loading succeeds iff the effective handler (the `handler`
export when truthy, else the `default` export) is a function and the
`config` export, when truthy, is an object (`typeof`-wise); on success the
loaded config is the config export when truthy, else the empty object. -/
theorem c9_load_validation (e : ModuleExports) :
    ((∃ fx, loadAndVerify e = .ok fx) ↔
      ((if e.handler.truthy then e.handler else e.dflt).typeOf = "function"
        ∧ (e.config.truthy = true → e.config.typeOf = "object")))
    ∧ (∀ fx, loadAndVerify e = .ok fx →
        fx = ⟨if e.config.truthy then e.config else emptyObject,
              if e.handler.truthy then e.handler else e.dflt⟩) := by
  by_cases h1 :
      (if e.handler.truthy then e.handler else e.dflt).typeOf = "function"
  · by_cases h2 : e.config.truthy
    · by_cases h3 : e.config.typeOf = "object"
      · constructor
        · constructor
          · intro _
            exact ⟨h1, fun _ => h3⟩
          · intro _
            refine ⟨⟨e.config,
              if e.handler.truthy then e.handler else e.dflt⟩, ?_⟩
            simp [loadAndVerify, h1, h2, h3]
        · intro fx hfx
          simp [loadAndVerify, h1, h2, h3] at hfx
          simp [← hfx, h2]
      · constructor
        · constructor
          · intro ⟨fx, hfx⟩
            simp [loadAndVerify, h1, h2, h3] at hfx
          · intro ⟨_, hcfg⟩
            exact absurd (hcfg h2) h3
        · intro fx hfx
          simp [loadAndVerify, h1, h2, h3] at hfx
    · have h4 : emptyObject.typeOf = "object" := rfl
      constructor
      · constructor
        · intro _
          refine ⟨h1, fun hh => absurd hh h2⟩
        · intro _
          refine ⟨⟨emptyObject,
            if e.handler.truthy then e.handler else e.dflt⟩, ?_⟩
          simp [loadAndVerify, h1, h2, h4]
      · intro fx hfx
        simp [loadAndVerify, h1, h2, h4] at hfx
        simp [← hfx, h2]
  · constructor
    · constructor
      · intro ⟨fx, hfx⟩
        simp [loadAndVerify, h1] at hfx
      · intro ⟨hh, _⟩
        exact absurd hh h1
    · intro fx hfx
      simp [loadAndVerify, h1] at hfx

theorem c9_load_validation_witness :
    ∃ fx, loadAndVerify ⟨.vUndefined, .vFunc 3, .vObj 7⟩ = .ok fx :=
  (c9_load_validation ⟨.vUndefined, .vFunc 3, .vObj 7⟩).1.mpr (by decide)

/-- C1 (counterexample): a handler that rejects immediately — with an ample
time budget, no timeout, and the handler invoked — still makes
`handleQueuedJob` return `false`, a third non-success situation beyond the
two the claim allows (budget exhausted at entry; timeout). -/
theorem c1_counterexample :
    (handleQueuedJob 300 30000 ⟨none, ⟨some 0, true⟩, none⟩
        true false).completed = false
    ∧ ¬(effectiveTimeout 300 30000 ≤ 0)
    ∧ (handleQueuedJob 300 30000 ⟨none, ⟨some 0, true⟩, none⟩
        true false).timedOutErrorThrown = false
    ∧ (handleQueuedJob 300 30000 ⟨none, ⟨some 0, true⟩, none⟩
        true false).handlerInvoked = true := by
  refine ⟨?_, by decide, ?_, ?_⟩ <;> rfl

/-- C1 (amended): `handleQueuedJob` returns `false` in exactly three
non-success situations — the time budget is exhausted at entry
(`min(queue.timeout * 1000, remainingTime) ≤ 0`, and then the handler is
never invoked), the job promise loses the race against the timer (timeout),
or the job promise (handler or `onJobStarted`/`onJobFinished` hook) rejects
before the timer fires; in every other case it returns `true`.  The boolean
itself does not distinguish the timeout case from the rejection case. -/
theorem c1_false_characterization (T : Nat) (R : Int) (b : QueueJobBehavior)
    (hoe oet : Bool) :
    ((handleQueuedJob T R b hoe oet).completed = false ↔
      (effectiveTimeout T R ≤ 0
        ∨ jobTimesOut (timerDelay T R) b
        ∨ jobRejectsBeforeTimer (timerDelay T R) b))
    ∧ (effectiveTimeout T R ≤ 0 →
        (handleQueuedJob T R b hoe oet).handlerInvoked = false) := by
  by_cases h0 : effectiveTimeout T R ≤ 0
  · constructor
    · simp only [handleQueuedJob, if_pos (show min ((T : Int) * 1000) R ≤ 0
        from h0)]
      simp [h0]
    · intro _
      simp only [handleQueuedJob, if_pos (show min ((T : Int) * 1000) R ≤ 0
        from h0)]
  · have h0' : ¬(min ((T : Int) * 1000) R ≤ 0) := h0
    constructor
    · simp only [handleQueuedJob, if_neg h0', jobTimesOut,
        jobRejectsBeforeTimer, timerDelay, effectiveTimeout]
      match hm : (queueRunWithMiddleware
          ((min ((T : Int) * 1000) R) * 1000).toNat b).outcome with
      | .settles t rejects =>
          by_cases ht : t < ((min ((T : Int) * 1000) R) * 1000).toNat
          · cases rejects
            · simp [hm, h0', ht, Nat.not_le.mpr ht]
            · simp [hm, h0', ht, Nat.not_le.mpr ht]
          · simp [hm, h0', Nat.le_of_not_lt ht]
            rw [if_neg (by omega)]
      | .pending => simp [hm, h0']
    · intro hcon
      exact absurd hcon h0

theorem c1_false_characterization_witness :
    (handleQueuedJob 300 30000 ⟨none, ⟨none, false⟩, none⟩
        true false).completed = false :=
  (c1_false_characterization 300 30000 ⟨none, ⟨none, false⟩, none⟩
    true false).1.mpr (Or.inr (Or.inl (by decide)))

/-- C2: the declared timeout is 5 seconds and the remaining budget 30000 ms,
so the spec demands the handler race a timer of
`min(5 s, 30000 ms) = 5000 ms` and a handler delaying 6000 ms be reported
TimedOut/not-completed after ~5 s.  The source computes
`timeout = Math.min(queue.timeout * 1000, remainingTime) = 5000` (already
milliseconds) and then sets `setTimeout(..., timeout * 1000)` — a timer of
5,000,000 ms — so the 6-second handler completes normally and the job is
reported completed; the code's own thrown message (`"... longer than
${timeout}s"`) would even print `5000s`, confirming the unit slip. -/
theorem c2_timer_unit_bug :
    effectiveTimeout 5 30000 = 5000
    ∧ (handleQueuedJob 5 30000 ⟨none, ⟨some 6000, false⟩, none⟩
        true false).timerDelayMs = 5000000
    ∧ (handleQueuedJob 5 30000 ⟨none, ⟨some 6000, false⟩, none⟩
        true false).completed = true
    ∧ (handleQueuedJob 5 30000 ⟨none, ⟨some 6000, false⟩, none⟩
        true false).timedOutErrorThrown = false := by
  refine ⟨by decide, ?_, ?_, ?_⟩ <;> rfl

/-- C6 (counterexample): a queue job whose handler succeeds but whose
`onJobFinished` hook throws is reported not-completed (`false`), while the
identical job with a non-throwing hook is reported completed (`true`) — the
lifecycle hook's failure changes the primary outcome. -/
theorem c6_counterexample :
    (handleQueuedJob 300 30000 ⟨none, ⟨some 10, false⟩, some ⟨some 1, true⟩⟩
        true false).completed = false
    ∧ (handleQueuedJob 300 30000 ⟨none, ⟨some 10, false⟩, some ⟨some 1, false⟩⟩
        true false).completed = true := by
  constructor <;> rfl

/-- C6 (amended): only `onMessageSent` (socket) and `onError` failures are
isolated — a rejecting `onMessageSent` never changes the socket reply, and
a rejecting `onError` never changes the queue job's boolean outcome.  The
hooks that fire before/between (`onJobStarted`, `onJobFinished`,
`onMessageReceived`) are awaited in the main chain, so their rejection
fails the invocation: in particular an otherwise-successful job whose
`onJobFinished` rejects in time is reported not-completed. -/
theorem c6_hook_isolation (tS : Nat) (bS : SocketBehavior) (T : Nat)
    (R : Int) (b : QueueJobBehavior) (hoe oet oet' : Bool)
    (dH dF dS dR : Nat) :
    ((handleRoute tS { bS with onMessageSentThrows := true }).reply
        = (handleRoute tS { bS with onMessageSentThrows := false }).reply)
    ∧ ((handleQueuedJob T R b hoe oet).completed
        = (handleQueuedJob T R b hoe oet').completed)
    ∧ (0 < effectiveTimeout T R → dH + dF < timerDelay T R →
        (handleQueuedJob T R ⟨none, ⟨some dH, false⟩, some ⟨some dF, true⟩⟩
          hoe oet).completed = false)
    ∧ (0 < effectiveTimeout T R → dS < timerDelay T R →
        (handleQueuedJob T R ⟨some ⟨some dS, true⟩, b.handler, b.onJobFinished⟩
          hoe oet).completed = false
        ∧ (handleQueuedJob T R ⟨some ⟨some dS, true⟩, b.handler,
            b.onJobFinished⟩ hoe oet).handlerInvoked = false)
    ∧ (dR < tS * 1000 →
        (handleRoute tS
          { bS with parseFails := false, onMessageReceived := some ⟨some dR, true⟩ }).reply
          = .errorReply "Error: handler failed"
        ∧ (handleRoute tS
          { bS with parseFails := false, onMessageReceived := some ⟨some dR, true⟩ }).handlerInvoked
          = false) := by
  refine ⟨?_, ?_, ?_, ?_, ?_⟩
  · obtain ⟨pf, omr, hdl, hres, hms, omst, hoe2⟩ := bS
    simp only [handleRoute, socketHandleResponse]
    split
    · rfl
    · split
      · split
        · split
          · rfl
          · split <;> rfl
        · rfl
      · rfl
  · simp only [handleQueuedJob]
    split
    · rfl
    · split
      · split
        · split <;> rfl
        · rfl
      · rfl
  · intro h0 hlt
    have h0' : ¬(min ((T : Int) * 1000) R ≤ 0) := by
      simp only [effectiveTimeout] at h0
      omega
    have hd : timerDelay T R = ((min ((T : Int) * 1000) R) * 1000).toNat :=
      rfl
    rw [hd] at hlt
    have hn1 : ¬(((min ((T : Int) * 1000) R) * 1000).toNat ≤ 0) := by omega
    have hn2 : ¬(((min ((T : Int) * 1000) R) * 1000).toNat ≤ 0 + dH) := by
      omega
    have hrun : (queueRunWithMiddleware
        ((min ((T : Int) * 1000) R) * 1000).toNat
        ⟨none, ⟨some dH, false⟩, some ⟨some dF, true⟩⟩).outcome
        = .settles (dH + dF) true := by
      simp [queueRunWithMiddleware, hn1, hn2]
      rw [if_neg (by omega)]
    simp only [handleQueuedJob]
    rw [if_neg h0']
    simp only [hrun]
    rw [if_pos hlt]
    simp
  · intro h0 hlt
    have h0' : ¬(min ((T : Int) * 1000) R ≤ 0) := by
      simp only [effectiveTimeout] at h0
      omega
    have hd : timerDelay T R = ((min ((T : Int) * 1000) R) * 1000).toNat :=
      rfl
    rw [hd] at hlt
    have hrun : queueRunWithMiddleware
        ((min ((T : Int) * 1000) R) * 1000).toNat
        ⟨some ⟨some dS, true⟩, b.handler, b.onJobFinished⟩
        = ⟨.settles dS true, false⟩ := rfl
    constructor <;>
    · simp only [handleQueuedJob]
      rw [if_neg h0']
      simp only [hrun]
      rw [if_pos hlt]
      simp
  · intro hdR
    obtain ⟨pf, omr, hdl, hres, hms, omst, hoe2⟩ := bS
    simp [handleRoute, hdR]

theorem c6_hook_isolation_witness :
    (handleQueuedJob 300 30000 ⟨none, ⟨some 10, false⟩, some ⟨some 1, true⟩⟩
        true true).completed = false
    ∧ (handleQueuedJob 300 30000 ⟨some ⟨some 5, true⟩, ⟨some 10, false⟩,
        none⟩ true true).completed = false
    ∧ (handleQueuedJob 300 30000 ⟨some ⟨some 5, true⟩, ⟨some 10, false⟩,
        none⟩ true true).handlerInvoked = false
    ∧ (handleRoute 10 ⟨false, some ⟨some 7, true⟩, ⟨some 0, false⟩, none,
        false, false, false⟩).reply = .errorReply "Error: handler failed"
    ∧ (handleRoute 10 ⟨false, some ⟨some 7, true⟩, ⟨some 0, false⟩, none,
        false, false, false⟩).handlerInvoked = false :=
  ⟨(c6_hook_isolation 10 ⟨false, none, ⟨some 0, false⟩, none, false, false,
      false⟩ 300 30000 ⟨none, ⟨some 10, false⟩, none⟩
      true true true 10 1 5 7).2.2.1 (by decide) (by decide),
   ((c6_hook_isolation 10 ⟨false, none, ⟨some 0, false⟩, none, false, false,
      false⟩ 300 30000 ⟨none, ⟨some 10, false⟩, none⟩
      true true true 10 1 5 7).2.2.2.1 (by decide) (by decide)).1,
   ((c6_hook_isolation 10 ⟨false, none, ⟨some 0, false⟩, none, false, false,
      false⟩ 300 30000 ⟨none, ⟨some 10, false⟩, none⟩
      true true true 10 1 5 7).2.2.2.1 (by decide) (by decide)).2,
   ((c6_hook_isolation 10 ⟨false, none, ⟨some 0, false⟩, none, false, false,
      false⟩ 300 30000 ⟨none, ⟨some 10, false⟩, none⟩
      true true true 10 1 5 7).2.2.2.2 (by decide)).1,
   ((c6_hook_isolation 10 ⟨false, none, ⟨some 0, false⟩, none, false, false,
      false⟩ 300 30000 ⟨none, ⟨some 10, false⟩, none⟩
      true true true 10 1 5 7).2.2.2.2 (by decide)).2⟩

/-- C10: whenever `handleQueuedJob` proceeds past its budget check (so a
timer and abort controller exist and the signal is handed to the handler),
and unconditionally for `handleRoute`, the `finally` block has cleared the
timeout timer and aborted the cancellation signal by the time the call
returns — for every outcome (success, rejection, or timeout), so a
still-running handler continuation observes an aborted signal. -/
theorem c10_cleanup (T : Nat) (R : Int) (b : QueueJobBehavior)
    (hoe oet : Bool) (tS : Nat) (bS : SocketBehavior) :
    (0 < effectiveTimeout T R →
      (handleQueuedJob T R b hoe oet).timerClearedAtReturn = true
      ∧ (handleQueuedJob T R b hoe oet).signalAbortedAtReturn = true)
    ∧ (handleRoute tS bS).timerClearedAtReturn = true
    ∧ (handleRoute tS bS).signalAbortedAtReturn = true := by
  refine ⟨?_, rfl, rfl⟩
  intro h0
  have h0' : ¬(min ((T : Int) * 1000) R ≤ 0) := by
    simp only [effectiveTimeout] at h0
    omega
  constructor <;>
  · simp only [handleQueuedJob]
    rw [if_neg h0']

theorem c10_cleanup_witness :
    (handleQueuedJob 300 30000 ⟨none, ⟨some 0, false⟩, none⟩
        true false).timerClearedAtReturn = true
    ∧ (handleQueuedJob 300 30000 ⟨none, ⟨some 0, false⟩, none⟩
        true false).signalAbortedAtReturn = true
    ∧ (handleRoute 10 ⟨false, none, ⟨some 0, false⟩, none, false, false,
        false⟩).signalAbortedAtReturn = true :=
  ⟨((c10_cleanup 300 30000 ⟨none, ⟨some 0, false⟩, none⟩ true false 10
      ⟨false, none, ⟨some 0, false⟩, none, false, false, false⟩).1
      (by decide)).1,
   ((c10_cleanup 300 30000 ⟨none, ⟨some 0, false⟩, none⟩ true false 10
      ⟨false, none, ⟨some 0, false⟩, none, false, false, false⟩).1
      (by decide)).2,
   (c10_cleanup 300 30000 ⟨none, ⟨some 0, false⟩, none⟩ true false 10
      ⟨false, none, ⟨some 0, false⟩, none, false, false, false⟩).2.2⟩

/-- C7: two concurrent invocations never observe each other's execution
context.  Each `handleRoute` invocation allocates a fresh `LocalStorage`
and every context write it performs targets its own storage (the task-scoped
`withLocalStorage` binding, modelled from the spec).  For any interleaving
the cooperative scheduler chooses of the two invocations' context writes,
invocation `j`'s context ends exactly as determined by its own writes over
its own storage — in particular the user it observes is its own `userId`,
regardless of anything invocation `i` wrote while both were in flight. -/
theorem c7_context_isolation (i j : Nat) (hij : i ≠ j)
    (u1 u2 : Option String) (c1 c2 : String)
    (tr : List (Nat × CtxAction)) (s0 : ProcessState)
    (h : Interleaving (tagged i (handleRouteCtxActions u1 c1))
          (tagged j (handleRouteCtxActions u2 c2)) tr) :
    runCtxTrace tr s0 j
      = (handleRouteCtxActions u2 c2).foldl applyAction (s0 j)
    ∧ (runCtxTrace tr s0 j).user
      = u2.bind (fun id => if id = "" then none else some id) := by
  have hfil := interleaving_filter h
    (fun p hp => by rw [tagged_fst hp]; exact hij)
    (fun p hp => tagged_fst hp)
  have heq : runCtxTrace tr s0 j
      = (handleRouteCtxActions u2 c2).foldl applyAction (s0 j) := by
    rw [runCtxTrace_filter, hfil, tagged_map_snd]
  refine ⟨heq, ?_⟩
  rw [heq]
  rfl

theorem c7_context_isolation_witness :
    (runCtxTrace
      [(0, CtxAction.setUser (some "A")), (1, CtxAction.setUser (some "B")),
       (0, CtxAction.setConnection "c1"), (1, CtxAction.setConnection "c2")]
      (fun _ => LocalStorage.fresh) 1).user = some "B" :=
  (c7_context_isolation 0 1 (by decide) (some "A") (some "B") "c1" "c2" _
    (fun _ => LocalStorage.fresh)
    (.left (.right (.left (.right .nil))))).2

/-- C8 (counterexample): two consecutive bracket segments are not both
replaced — the match for `[a]` consumes the separating slash, so scanning
resumes inside `[b]` and leaves it as-is: `/[a]/[b]` compiles to
`/:a/[b]`, not `/:a/:b`. -/
theorem c8_counterexample :
    replaceBracket "/[a]/[b]" = "/:a/[b]"
    ∧ replaceBracket "/[a]/[b]" ≠ "/:a/:b" := by
  have heval : replaceBracket "/[a]/[b]" = "/:a/[b]" := by
    show (⟨scanAux true ("/[a]/[b]".toList)⟩ : String) = "/:a/[b]"
    rw [show "/[a]/[b]".toList
          = '/' :: ['[', 'a', ']', '/', '[', 'b', ']'] from rfl]
    rw [scanAux_cons_match (show tryMatch true
        ('/' :: ['[', 'a', ']', '/', '[', 'b', ']'])
        = some (['/', ':', 'a', '/'], ['[', 'b', ']']) from rfl)]
    rw [show (['[', 'b', ']'] : List Char) = '[' :: ['b', ']'] from rfl,
      scanAux_cons_nomatch (show tryMatch false ('[' :: ['b', ']'])
        = none from rfl)]
    rw [show (['b', ']'] : List Char) = 'b' :: [']'] from rfl,
      scanAux_cons_nomatch (show tryMatch false ('b' :: [']'])
        = none from rfl)]
    rw [show ([']'] : List Char) = ']' :: [] from rfl,
      scanAux_cons_nomatch (show tryMatch false (']' :: [])
        = none from rfl)]
    rw [scanAux_nil]
    rfl
  refine ⟨heval, ?_⟩
  rw [heval]
  decide

/-- C8 (amended): for every well-formed absolute path rendered from
segments (literals free of `/` and `[`; bracket names non-empty, free of
`]` and newlines) in which no two bracket segments are consecutive,
compiling replaces every bracket segment: each `[name]` becomes `:name`
and each `[...name]` becomes `:name*`, at every position.  (When two
bracket segments are consecutive, the first match consumes the separator
and the second segment is left unreplaced — see the counterexample.) -/
theorem c8_replaceBracket_segments (segs : List Seg)
    (hok : ∀ s ∈ segs, s.ok) (hadj : noAdjBrackets segs = true) :
    replaceBracket ⟨preSlashRender segs⟩ = ⟨preSlashReplaced segs⟩ := by
  match segs with
  | [] =>
      show (⟨scanAux true ((⟨[]⟩ : String).toList)⟩ : String) = ⟨[]⟩
      rw [show (⟨[]⟩ : String).toList = [] from rfl, scanAux_nil]
  | s :: r =>
      show (⟨scanAux true
        ((⟨'/' :: (s.render ++ preSlashRender r)⟩ : String).toList)⟩ : String)
        = ⟨preSlashReplaced (s :: r)⟩
      rw [show (⟨'/' :: (s.render ++ preSlashRender r)⟩ : String).toList
            = '/' :: (s.render ++ preSlashRender r) from rfl]
      rw [scanAux_true_slash]
      rw [show ('/' :: (s.render ++ preSlashRender r))
            = preSlashRender (s :: r) from rfl]
      rw [scan_preSlash (s :: r) hok hadj]

theorem c8_replaceBracket_segments_witness :
    replaceBracket ⟨preSlashRender
      [Seg.lit ['b', 'o', 'o', 'k', 'm', 'a', 'r', 'k', 's'],
       Seg.bracket ['i', 'd'], Seg.lit ['x'],
       Seg.bracket ['.', '.', '.', 'r', 'e', 's', 't']]⟩
    = ⟨preSlashReplaced
      [Seg.lit ['b', 'o', 'o', 'k', 'm', 'a', 'r', 'k', 's'],
       Seg.bracket ['i', 'd'], Seg.lit ['x'],
       Seg.bracket ['.', '.', '.', 'r', 'e', 's', 't']]⟩ :=
  c8_replaceBracket_segments _ (by decide) (by decide)

end QueueRun
